import Mathlib

/-!
Verification of the wigle repository's paginated-fetch scripts.

The repository contains three near-identical fetch scripts plus a CSV-to-KML
converter:
- bluetooth.py / BluetoothCellularWiFi.py: the full paginated loop with an
  incremental sink (the CSV file is open for the whole session and each batch
  is appended as it arrives, header written iff f.tell() == 0);
- wifi.py: the paginated loop that accumulates results in memory and writes
  the CSV only after the loop, on break paths;
- wigle.py: a single-page fetch that retries only on HTTP 429;
- Cellular-csvtokml.py: re-parses the persisted CSV with csv.DictReader's
  default dialect.

The loops are embedded as step functions over a trace of request outcomes.
Network I/O is abstracted into the Outcome type: each element of the trace is
what one requests.get call produced (the HTTP status with its JSON payload, or
the exception raised).  time.sleep calls are counted, and every request that
is issued is logged together with the offset ("start" query parameter) it was
issued at.
-/

namespace WigleRepo

/-- One line of a persisted CSV file: the header row written by
pandas.DataFrame.to_csv when its header flag is true, or one data row.
Data rows are kept opaque (one string per record). -/
inductive SinkLine where
  | header : SinkLine
  | row : String → SinkLine
deriving DecidableEq

/-- bluetooth.py line 155 / BluetoothCellularWiFi.py line 90:
df.to_csv(f, index=False, header=f.tell() == 0, escapechar="\\") on the
session's open append-mode file.  The header is written exactly when nothing
has been written to the file yet (f.tell() == 0, i.e. the file content is
empty); the batch's records follow. -/
def appendBatch (sink : List SinkLine) (batch : List String) : List SinkLine :=
  sink ++ (if sink.isEmpty then [SinkLine.header] else []) ++ batch.map SinkLine.row

/-- Appending a whole session's batches in arrival order. -/
def appendBatches (sink : List SinkLine) (batches : List (List String)) : List SinkLine :=
  batches.foldl appendBatch sink

/-- Number of header lines in a persisted file. -/
def countHeaders (sink : List SinkLine) : Nat :=
  (sink.filter (fun l => l = SinkLine.header)).length

/-- The data rows of a persisted file, in order. -/
def dataRows (sink : List SinkLine) : List String :=
  sink.filterMap (fun l => match l with | .header => none | .row r => some r)

/-- The outcome of one requests.get call, as the scripts classify it:
HTTP 200 with its results list and reported totalResults, HTTP 401, HTTP 429,
any other status code, or one of the exception classes the scripts catch. -/
inductive Outcome where
  | success : List String → Nat → Outcome
  | http401 : Outcome
  | http429 : Outcome
  | httpOther : Nat → Outcome
  | timeout : Outcome
  | tooManyRedirects : Outcome
  | connectionError : Outcome
  | otherException : Outcome
deriving DecidableEq

/-- How a fetch session ended. outOfTrace marks a model artefact: the supplied
outcome trace ran out while the loop would have issued another request. -/
inductive Term where
  | completed : Term
  | unauthorized : Term
  | rateLimited : Term
  | httpFailure : Term
  | redirects : Term
  | exception : Term
  | exhausted : Term
  | outOfTrace : Term
deriving DecidableEq

/-- The mutable state of bluetooth.py's send_request (equally
BluetoothCellularWiFi.py's): current_count, total_count (None until the first
success), retries, the "start" query parameter (absent until set after the
first short batch), the open file's content, plus the log of issued requests
(the offset each was issued at) and the number of time.sleep calls. -/
structure BtState where
  currentCount : Nat
  totalCount : Option Nat
  retries : Nat
  start : Option Nat
  sink : List SinkLine
  requests : List (Option Nat)
  sleeps : Nat
deriving DecidableEq

/-- Session start state of bluetooth.py's send_request: current_count = 0,
total_count = None, retries = 0, no "start" parameter, a freshly opened
(empty) file. -/
def btInit : BtState :=
  { currentCount := 0, totalCount := none, retries := 0, start := none,
    sink := [], requests := [], sleeps := 0 }

/-- One iteration of bluetooth.py's while body (lines 143-191), given the
outcome of its requests.get call.  Returns the new state and, when the body
breaks out of the loop, the termination reason.
- 200: current_count += len(results); total_count set from totalResults only
  if still None; the batch is appended to the open file (header iff the file
  is empty); break if current_count >= total_count, else set
  query_params["start"] = current_count and sleep.
- 401, 429, any other status, TooManyRedirects, generic Exception: break.
- Timeout, ConnectionError: retries += 1, sleep, continue. -/
def bluetoothStep (st : BtState) (o : Outcome) : BtState × Option Term :=
  let stq : BtState := { st with requests := st.requests ++ [st.start] }
  match o with
  | .success results totalResults =>
    let cc := stq.currentCount + results.length
    let tc := stq.totalCount.getD totalResults
    let st2 : BtState :=
      { stq with currentCount := cc, totalCount := some tc,
                 sink := appendBatch stq.sink results }
    if tc ≤ cc then (st2, some Term.completed)
    else ({ st2 with start := some cc, sleeps := st2.sleeps + 1 }, none)
  | .http401 => (stq, some Term.unauthorized)
  | .http429 => (stq, some Term.rateLimited)
  | .httpOther _ => (stq, some Term.httpFailure)
  | .timeout => ({ stq with retries := stq.retries + 1, sleeps := stq.sleeps + 1 }, none)
  | .tooManyRedirects => (stq, some Term.redirects)
  | .connectionError => ({ stq with retries := stq.retries + 1, sleeps := stq.sleeps + 1 }, none)
  | .otherException => (stq, some Term.exception)

/-- bluetooth.py's while retries < MAX_RETRIES loop (lines 142-191), driven by
a trace of request outcomes.  The guard is checked before every request; when
it fails the loop exits with the retry budget exhausted. -/
def bluetoothRun (maxRetries : Nat) : BtState → List Outcome → BtState × Term
  | st, [] =>
    if maxRetries ≤ st.retries then (st, Term.exhausted) else (st, Term.outOfTrace)
  | st, o :: rest =>
    if maxRetries ≤ st.retries then (st, Term.exhausted)
    else
      match bluetoothStep st o with
      | (st', some t) => (st', t)
      | (st', none) => bluetoothRun maxRetries st' rest

/-- The mutable state of wifi.py's send_request: the in-memory accumulator
total_results, current_count, total_count, retries, the "start" parameter,
plus the request log and sleep count. -/
structure WifiState where
  totalResults : List String
  currentCount : Nat
  totalCount : Option Nat
  retries : Nat
  start : Option Nat
  requests : List (Option Nat)
  sleeps : Nat
deriving DecidableEq

/-- Session start state of wifi.py's send_request. -/
def wifiInit : WifiState :=
  { totalResults := [], currentCount := 0, totalCount := none, retries := 0,
    start := none, requests := [], sleeps := 0 }

/-- wifi.py lines 102-112: after the loop, the accumulated rows are written to
a fresh timestamped CSV (mode "a" on a file that does not exist yet, header
written since os.path.isfile is false). -/
def wifiSaveFile (rows : List String) : List SinkLine :=
  SinkLine.header :: rows.map SinkLine.row

/-- wifi.py lines 101-119: code after the loop.  Runs only on paths that fall
through the while loop (break or guard failure, not return): the file is
written iff total_results is nonempty. -/
def wifiFinish (st : WifiState) (t : Term) : WifiState × Term × Option (List SinkLine) :=
  if st.totalResults.isEmpty then (st, t, none)
  else (st, t, some (wifiSaveFile st.totalResults))

/-- wifi.py's send_request loop (lines 58-99) with its after-loop save,
driven by a trace of outcomes.  Returns the final state, the termination
reason, and the persisted file content (none when nothing was written).
- 200: extend total_results, current_count += len(results), total_count set
  on first success; break (then save) if current_count >= total_count, else
  set "start" and sleep.
- 401: return — the save code is skipped, accumulated results are discarded.
- 429: break — the save code runs.
- any other status: return — save skipped.
- ConnectionError: retries += 1, sleep, continue.
- every other exception (Timeout and TooManyRedirects included, both caught
  by the generic except Exception clause here): return — save skipped.
- loop guard failure (retry budget spent): falls through to the save code. -/
def wifiRun (maxRetries : Nat) : WifiState → List Outcome → WifiState × Term × Option (List SinkLine)
  | st, [] =>
    if maxRetries ≤ st.retries then wifiFinish st Term.exhausted
    else (st, Term.outOfTrace, none)
  | st, o :: rest =>
    if maxRetries ≤ st.retries then wifiFinish st Term.exhausted
    else
      let stq : WifiState := { st with requests := st.requests ++ [st.start] }
      match o with
      | .success results totalResults =>
        let cc := stq.currentCount + results.length
        let tc := stq.totalCount.getD totalResults
        let st2 : WifiState :=
          { stq with totalResults := stq.totalResults ++ results,
                     currentCount := cc, totalCount := some tc }
        if tc ≤ cc then wifiFinish st2 Term.completed
        else wifiRun maxRetries { st2 with start := some cc, sleeps := st2.sleeps + 1 } rest
      | .http401 => (stq, Term.unauthorized, none)
      | .http429 => wifiFinish stq Term.rateLimited
      | .httpOther _ => (stq, Term.httpFailure, none)
      | .connectionError =>
        wifiRun maxRetries { stq with retries := stq.retries + 1, sleeps := stq.sleeps + 1 } rest
      | .timeout => (stq, Term.exception, none)
      | .tooManyRedirects => (stq, Term.exception, none)
      | .otherException => (stq, Term.exception, none)

/-- The mutable state of wigle.py's send_request: retries, plus the number of
requests issued, the sleep count, and the file written on success (none until
then). -/
structure WigleState where
  retries : Nat
  requests : Nat
  sleeps : Nat
  file : Option (List SinkLine)
deriving DecidableEq

/-- Session start state of wigle.py's send_request. -/
def wigleInit : WigleState :=
  { retries := 0, requests := 0, sleeps := 0, file := none }

/-- How wigle.py's send_request ends: saved (one page written, function
returns), any non-200/429 status (error printed, return), an exception
(return), or the while guard failing after 429 retries. -/
inductive WigleTerm where
  | saved : WigleTerm
  | httpFailure : WigleTerm
  | exception : WigleTerm
  | exhausted : WigleTerm
  | outOfTrace : WigleTerm
deriving DecidableEq

/-- wigle.py lines 62-66: df.to_csv(path, index=False, escapechar="\\") with
the default write mode "w" — the file is truncated, so the result is
independent of whatever content the path held before. -/
def wigleSave (_oldContent : List SinkLine) (results : List String) : List SinkLine :=
  SinkLine.header :: results.map SinkLine.row

/-- wigle.py's while retries < max_retries loop (lines 43-77), driven by a
trace of outcomes.
- 200: save the single page to the CSV (overwriting the path) and return.
- 429: sleep retry_delay, retries += 1, request again.
- any other status (401 included — wigle.py does not special-case it):
  print the error and return.
- any exception: print and return. -/
def wigleRun (maxRetries : Nat) : WigleState → List Outcome → WigleState × WigleTerm
  | st, [] =>
    if maxRetries ≤ st.retries then (st, WigleTerm.exhausted) else (st, WigleTerm.outOfTrace)
  | st, o :: rest =>
    if maxRetries ≤ st.retries then (st, WigleTerm.exhausted)
    else
      let stq : WigleState := { st with requests := st.requests + 1 }
      match o with
      | .success results _ =>
        ({ stq with file := some (wigleSave (stq.file.getD []) results) }, WigleTerm.saved)
      | .http429 =>
        wigleRun maxRetries { stq with retries := stq.retries + 1, sleeps := stq.sleeps + 1 } rest
      | .http401 => (stq, WigleTerm.httpFailure)
      | .httpOther _ => (stq, WigleTerm.httpFailure)
      | .timeout => (stq, WigleTerm.exception)
      | .tooManyRedirects => (stq, WigleTerm.exception)
      | .connectionError => (stq, WigleTerm.exception)
      | .otherException => (stq, WigleTerm.exception)

/-- wigle.py line 63: the output path
f"tests/\x7blocation\x7d_\x7blatrange1\x7d_\x7blongrange1\x7d.csv" — built
from the location name and the query coordinates only; no timestamp. -/
def wigleFilename (location latrange1 longrange1 : String) : String :=
  "tests/" ++ location ++ "_" ++ latrange1 ++ "_" ++ longrange1 ++ ".csv"

/-- bluetooth.py lines 125-126: os.path.join("tests",
f"\x7blatrange1\x7d_\x7blongrange1\x7d_\x7btimestamp\x7d.csv"). -/
def bluetoothFilename (latrange1 longrange1 timestamp : String) : String :=
  "tests/" ++ latrange1 ++ "_" ++ longrange1 ++ "_" ++ timestamp ++ ".csv"

/-- wifi.py line 105:
f"tests/\x7blocation\x7d_\x7blatrange1\x7d_\x7blongrange1\x7d_\x7btimestamp\x7d.csv". -/
def wifiFilename (location latrange1 longrange1 timestamp : String) : String :=
  "tests/" ++ location ++ "_" ++ latrange1 ++ "_" ++ longrange1 ++ "_" ++ timestamp ++ ".csv"

/-! CSV field serialization.  The scripts write with pandas to_csv using
delimiter ',', quotechar a double quote, QUOTE_MINIMAL, doublequote=True and
escapechar a backslash; Cellular-csvtokml.py re-parses with csv.DictReader's
default dialect (same delimiter and quotechar, doublequote=True, no
escapechar).  Fields are modelled as character lists. -/

/-- Under QUOTE_MINIMAL a field is quoted iff it contains the delimiter, the
quote character, or a line-terminator character. -/
def needsQuoting (field : List Char) : Bool :=
  field.any (fun c => c = ',' || c = '"' || c = '\n' || c = '\r')

/-- Inside a quoted field the csv writer doubles the quote character
(doublequote=True) and, because escapechar is set, also doubles the escape
character itself. -/
def escapeWriterChar (c : Char) : List Char :=
  if c = '\\' then ['\\', '\\']
  else if c = '"' then ['"', '"']
  else [c]

/-- The csv writer's serialization of one field: quoted (with quote and
escape characters doubled) when the field needs quoting; otherwise written
in place, with occurrences of the escape character still doubled (the escape
character alone does not force quoting). -/
def writeField (field : List Char) : List Char :=
  if needsQuoting field then
    '"' :: (field.flatMap escapeWriterChar ++ ['"'])
  else
    field.flatMap (fun c => if c = '\\' then ['\\', '\\'] else [c])

/-- The default-dialect reader's scan of a quoted field's interior: a doubled
quote yields one quote, a single quote closes the field (any remaining
characters are taken as written), and no escape processing is done since the
default dialect has no escapechar. -/
def parseQuoted : List Char → List Char
  | [] => []
  | c :: cs =>
    if c = '"' then
      match cs with
      | [] => []
      | c2 :: cs2 => if c2 = '"' then '"' :: parseQuoted cs2 else c2 :: cs2
    else c :: parseQuoted cs

/-- The default-dialect reader's parse of one serialized field: a field
opening with the quote character is read as a quoted field, anything else is
taken literally (no escapechar in the default dialect). -/
def parseField (s : List Char) : List Char :=
  match s with
  | [] => []
  | c :: cs => if c = '"' then parseQuoted cs else c :: cs

/-- bluetooth.py lines 19-29, is_valid_token: re.fullmatch of the pattern
character-class [\w\-_=] repeated zero or more times.  \w is modelled as
ASCII alphanumeric or underscore. -/
def is_valid_token (token : String) : Bool :=
  token.data.all (fun c => c.isAlphanum || c = '_' || c = '-' || c = '=')

/-- Python str.strip(): remove leading and trailing whitespace. -/
def pyStrip (s : String) : String :=
  ⟨((s.data.dropWhile Char.isWhitespace).reverse.dropWhile Char.isWhitespace).reverse⟩

/-- bluetooth.py get_input (lines 81-95): read inputs until one, after
strip(), passes the validation function; modelled over the list of inputs the
user would type. -/
def get_input (validation : String → Bool) : List String → Option String
  | [] => none
  | v :: rest =>
    let value := pyStrip v
    if validation value then some value else get_input validation rest

/-- bluetooth.py get_token (lines 97-108): the Authorization header value
"Basic " followed by the first input that is_valid_token accepts. -/
def get_token (inputs : List String) : Option String :=
  (get_input is_valid_token inputs).map (fun token => "Basic " ++ token)

/-- A trace in which every request succeeds, with all responses reporting the
same totalResults. -/
def successTrace (batches : List (List String)) (total : Nat) : List Outcome :=
  batches.map (fun b => Outcome.success b total)

/-- Total number of records across a list of batches. -/
def sumLens (batches : List (List String)) : Nat :=
  (batches.map List.length).sum

end WigleRepo

namespace WigleRepo

/-! Helper lemmas about the incremental sink. -/

lemma countHeaders_append (a b : List SinkLine) :
    countHeaders (a ++ b) = countHeaders a + countHeaders b := by
  simp [countHeaders, List.filter_append]

lemma dataRows_append (a b : List SinkLine) :
    dataRows (a ++ b) = dataRows a ++ dataRows b := by
  simp [dataRows, List.filterMap_append]

lemma countHeaders_rows (batch : List String) :
    countHeaders (batch.map SinkLine.row) = 0 := by
  induction batch with
  | nil => rfl
  | cons r rest ih => simp only [List.map_cons, countHeaders, List.filter_cons_of_neg,
      decide_eq_true_eq, reduceCtorEq, not_false_eq_true] at ih ⊢; exact ih

lemma dataRows_rows (batch : List String) :
    dataRows (batch.map SinkLine.row) = batch := by
  induction batch with
  | nil => rfl
  | cons r rest ih => simpa [dataRows] using ih

lemma appendBatch_of_ne_nil (sink : List SinkLine) (batch : List String)
    (h : sink ≠ []) : appendBatch sink batch = sink ++ batch.map SinkLine.row := by
  simp [appendBatch, List.isEmpty_iff, h]

lemma appendBatches_of_ne_nil (batches : List (List String)) :
    ∀ sink : List SinkLine, sink ≠ [] →
      appendBatches sink batches = sink ++ batches.flatten.map SinkLine.row := by
  induction batches with
  | nil => intro sink _; simp [appendBatches]
  | cons b rest ih =>
    intro sink h
    have hb : appendBatch sink b = sink ++ b.map SinkLine.row :=
      appendBatch_of_ne_nil sink b h
    have hne : sink ++ b.map SinkLine.row ≠ [] := by
      intro hc
      exact h (List.append_eq_nil.mp hc).1
    calc appendBatches sink (b :: rest)
        = appendBatches (sink ++ b.map SinkLine.row) rest := by
          simp [appendBatches, List.foldl_cons, hb]
      _ = (sink ++ b.map SinkLine.row) ++ rest.flatten.map SinkLine.row := ih _ hne
      _ = sink ++ (b :: rest).flatten.map SinkLine.row := by
          simp [List.flatten_cons, List.map_append, List.append_assoc]

end WigleRepo

namespace WigleRepo

lemma countHeaders_header_cons (l : List SinkLine) :
    countHeaders (SinkLine.header :: l) = countHeaders l + 1 := by
  simp [countHeaders]

lemma dataRows_header_cons (l : List SinkLine) :
    dataRows (SinkLine.header :: l) = dataRows l := by
  simp [dataRows]

lemma appendBatches_nil_cons (b : List String) (rest : List (List String)) :
    appendBatches [] (b :: rest) =
      SinkLine.header :: (b.map SinkLine.row ++ rest.flatten.map SinkLine.row) := by
  have h1 : appendBatch [] b = SinkLine.header :: b.map SinkLine.row := by
    simp [appendBatch]
  have hne : appendBatch ([] : List SinkLine) b ≠ [] := by simp [h1]
  have h2 := appendBatches_of_ne_nil rest (appendBatch [] b) hne
  calc appendBatches [] (b :: rest)
      = appendBatches (appendBatch [] b) rest := by simp [appendBatches]
    _ = appendBatch [] b ++ rest.flatten.map SinkLine.row := h2
    _ = SinkLine.header :: (b.map SinkLine.row ++ rest.flatten.map SinkLine.row) := by
        rw [h1]; rfl

/-- C5: writing N batches (N ≥ 1) to a fresh sink produces exactly one header
line followed by the batches' data rows in arrival order; the last conjunct
ties the sink operation to the fetch loop: every successful iteration of
bluetooth.py's loop writes its batch through this append. -/
theorem fresh_sink_single_header (batches : List (List String)) (h : batches ≠ []) :
    appendBatches [] batches = SinkLine.header :: batches.flatten.map SinkLine.row ∧
    countHeaders (appendBatches [] batches) = 1 ∧
    dataRows (appendBatches [] batches) = batches.flatten ∧
    (∀ (st : BtState) (rs : List String) (T : Nat),
      ((bluetoothStep st (Outcome.success rs T)).1).sink = appendBatch st.sink rs) := by
  refine ⟨?_, ?_, ?_, ?_⟩
  · match batches, h with
    | b :: rest, _ =>
      rw [appendBatches_nil_cons, List.flatten_cons, List.map_append]
  · match batches, h with
    | b :: rest, _ =>
      rw [appendBatches_nil_cons, countHeaders_header_cons, countHeaders_append,
        countHeaders_rows, countHeaders_rows]
  · match batches, h with
    | b :: rest, _ =>
      rw [appendBatches_nil_cons, dataRows_header_cons, dataRows_append,
        dataRows_rows, dataRows_rows, List.flatten_cons]
  · intro st rs T
    simp only [bluetoothStep]
    split <;> rfl

/-- Witness for fresh_sink_single_header: two one-row batches on a fresh sink
yield one header and the two rows in order. -/
theorem fresh_sink_single_header_witness :
    appendBatches [] [["r1"], ["r2"]] =
      SinkLine.header :: [["r1"], ["r2"]].flatten.map SinkLine.row ∧
    countHeaders (appendBatches [] [["r1"], ["r2"]]) = 1 ∧
    dataRows (appendBatches [] [["r1"], ["r2"]]) = [["r1"], ["r2"]].flatten ∧
    (∀ (st : BtState) (rs : List String) (T : Nat),
      ((bluetoothStep st (Outcome.success rs T)).1).sink = appendBatch st.sink rs) :=
  fresh_sink_single_header [["r1"], ["r2"]] (by decide)

end WigleRepo

namespace WigleRepo

/-- C10: is_valid_token accepts the empty string (its character class is
starred, so it matches zero characters), and get_token on an empty input
line therefore returns the Authorization value "Basic " with no token
appended instead of re-prompting. -/
theorem empty_token_accepted :
    is_valid_token "" = true ∧ get_token [""] = some "Basic " := by
  constructor
  · decide
  · decide

/-- C1 counterexample: wigle.py's send_request returns after its first
successful page no matter what the response's totalResults reports.  Here the
first page holds one record while totalResults is 5, a second success is
still available on the trace, yet the loop saves the single page and stops
after exactly one request — it terminates with retrieved < total, no abort
signal, and an unspent retry budget, and never issues the next page request. -/
theorem wigle_single_page_stops_short :
    wigleRun 3 wigleInit [Outcome.success ["r1"] 5, Outcome.success ["r2"] 5] =
      ({ retries := 0, requests := 1, sleeps := 0,
         file := some [SinkLine.header, SinkLine.row "r1"] }, WigleTerm.saved) := by
  decide

/-- C2 counterexample: wigle.py's send_request does not stop on HTTP 429 — it
sleeps and retries.  On a trace of two 429 responses followed by a success it
issues three requests and ends in the saved state, so a rate-limited outcome
did not terminate the session. -/
theorem wigle_retries_on_rate_limit :
    wigleRun 3 wigleInit [Outcome.http429, Outcome.http429, Outcome.success ["r"] 1] =
      ({ retries := 2, requests := 3, sleeps := 2,
         file := some [SinkLine.header, SinkLine.row "r"] }, WigleTerm.saved) := by
  decide

/-- C3 counterexample: in wifi.py a 401 after one successful batch returns
from send_request before the save code runs: the batch sits in the in-memory
accumulator (totalResults = ["r"]) but the persisted output is none — the
committed batch is discarded, not preserved. -/
theorem wifi_discards_results_on_unauthorized :
    (wifiRun 3 wifiInit [Outcome.success ["r"] 5, Outcome.http401]).1.totalResults = ["r"] ∧
    (wifiRun 3 wifiInit [Outcome.success ["r"] 5, Outcome.http401]).2.1 = Term.unauthorized ∧
    (wifiRun 3 wifiInit [Outcome.success ["r"] 5, Outcome.http401]).2.2 = none := by
  decide

/-- C4 counterexample: the cursor can exceed the known total, and it does not
strictly increase on an empty batch.  A first response carrying two records
but reporting totalResults = 1 leaves retrieved = 2 > 1 = total; a first
response with an empty results list leaves retrieved unchanged at 0. -/
theorem cursor_can_exceed_total :
    ((bluetoothRun 1 btInit [Outcome.success ["a", "b"] 1]).1.currentCount = 2 ∧
      (bluetoothRun 1 btInit [Outcome.success ["a", "b"] 1]).1.totalCount = some 1) ∧
    ((bluetoothStep btInit (Outcome.success [] 3)).1).currentCount = btInit.currentCount := by
  decide

/-- C6 counterexample: a successful batch does not reset the retry counter.
From a state with retries = 1, a success that leaves the loop running keeps
retries = 1 instead of resetting it to 0. -/
theorem retry_counter_not_reset_on_success :
    ((bluetoothStep { btInit with retries := 1 } (Outcome.success ["a"] 5)).1).retries = 1 := by
  decide

/-- C8 counterexample: a field consisting of one backslash (the sink's escape
character) is serialized by the writer as two backslashes, and the
default-dialect re-parser used by Cellular-csvtokml.py leaves both in place:
the round trip returns a two-character field, not the original. -/
theorem escape_char_breaks_round_trip :
    parseField (writeField ['\\']) = ['\\', '\\'] ∧
    (['\\', '\\'] : List Char) ≠ ['\\'] := by
  decide

/-- C9 counterexample: wigle.py's output path contains no timestamp — it is
built from the location and coordinates alone — so two sessions with the same
query target the same path, and the save (to_csv in its default write mode)
replaces the file: a row persisted by the earlier session is gone after the
later one. -/
theorem wigle_filename_ignores_timestamp :
    wigleFilename "tacoma" "47.2" "-122.5" = "tests/tacoma_47.2_-122.5.csv" ∧
    wigleSave [SinkLine.header, SinkLine.row "old"] ["new"] =
      [SinkLine.header, SinkLine.row "new"] ∧
    SinkLine.row "old" ∉ wigleSave [SinkLine.header, SinkLine.row "old"] ["new"] := by
  refine ⟨by decide, by decide, ?_⟩
  decide

end WigleRepo

namespace WigleRepo

lemma parseQuoted_quote_quote (cs : List Char) :
    parseQuoted ('"' :: '"' :: cs) = '"' :: parseQuoted cs := by
  rw [parseQuoted.eq_def]
  simp

lemma parseQuoted_cons_ne (c : Char) (cs : List Char) (h : c ≠ '"') :
    parseQuoted (c :: cs) = c :: parseQuoted cs := by
  rw [parseQuoted.eq_def]
  dsimp only
  rw [if_neg h]

lemma parseQuoted_escaped (f : List Char) (h : '\\' ∉ f) :
    parseQuoted (f.flatMap escapeWriterChar ++ ['"']) = f := by
  induction f with
  | nil => decide
  | cons c cs ih =>
    have hc : c ≠ '\\' := fun hc => h (hc ▸ List.mem_cons_self c cs)
    have hcs : '\\' ∉ cs := fun hm => h (List.mem_cons_of_mem c hm)
    by_cases hq : c = '"'
    · subst hq
      have hsplit : ('"' :: cs).flatMap escapeWriterChar ++ ['"'] =
          '"' :: '"' :: (cs.flatMap escapeWriterChar ++ ['"']) := by
        simp [escapeWriterChar, List.flatMap_cons]
      rw [hsplit, parseQuoted_quote_quote, ih hcs]
    · have hsplit : (c :: cs).flatMap escapeWriterChar ++ ['"'] =
          c :: (cs.flatMap escapeWriterChar ++ ['"']) := by
        simp [escapeWriterChar, List.flatMap_cons, hc, hq]
      rw [hsplit, parseQuoted_cons_ne c _ hq, ih hcs]

lemma escape_only_id (f : List Char) (h : '\\' ∉ f) :
    (f.flatMap (fun c => if c = '\\' then ['\\', '\\'] else [c])) = f := by
  induction f with
  | nil => rfl
  | cons c cs ih =>
    have hc : c ≠ '\\' := fun hc => h (hc ▸ List.mem_cons_self c cs)
    have hcs : '\\' ∉ cs := fun hm => h (List.mem_cons_of_mem c hm)
    simp only [List.flatMap_cons, if_neg hc, List.singleton_append, ih hcs]

lemma needsQuoting_of_mem_quote {f : List Char} (hm : '"' ∈ f) :
    needsQuoting f = true := by
  simp only [needsQuoting, List.any_eq_true]
  exact ⟨'"', hm, by decide⟩

/-- C8 (amended): for every field that does not contain the escape character,
the writer's serialization re-parsed with the reader's default dialect gives
back the original field — in particular fields containing the delimiter (or
the quote character) round-trip; fields containing the escape character do
not (see the counterexample). -/
theorem round_trip_without_escape_char (field : List Char) (h : '\\' ∉ field) :
    parseField (writeField field) = field := by
  unfold writeField
  by_cases hq : needsQuoting field
  · rw [if_pos hq]
    simp only [parseField, if_pos rfl]
    exact parseQuoted_escaped field h
  · rw [if_neg hq, escape_only_id field h]
    cases field with
    | nil => rfl
    | cons c cs =>
      have hc : c ≠ '"' := fun hceq => hq (needsQuoting_of_mem_quote (hceq ▸ List.mem_cons_self c cs))
      simp [parseField, hc]

/-- Witness for round_trip_without_escape_char: a field containing the
delimiter round-trips unchanged. -/
theorem round_trip_without_escape_char_witness :
    parseField (writeField ['a', ',', 'b']) = ['a', ',', 'b'] :=
  round_trip_without_escape_char ['a', ',', 'b'] (by decide)

end WigleRepo

namespace WigleRepo

lemma string_affix_inj {p s t1 t2 : String} (h : p ++ t1 ++ s = p ++ t2 ++ s) :
    t1 = t2 := by
  have hd := congrArg String.data h
  simp only [String.data_append, List.append_assoc] at hd
  have h1 : t1.data ++ s.data = t2.data ++ s.data := List.append_cancel_left hd
  exact String.ext (List.append_cancel_right h1)

/-- C9 (amended): bluetooth.py's and wifi.py's output paths embed the session
timestamp after the query identity, so two sessions of the same query taken
at distinct timestamps write to distinct files; wigle.py's path omits the
timestamp and is overwritten on a repeated run (see the counterexample). -/
theorem timestamped_filenames_distinct (location latrange1 longrange1 t1 t2 : String)
    (h : t1 ≠ t2) :
    bluetoothFilename latrange1 longrange1 t1 ≠ bluetoothFilename latrange1 longrange1 t2 ∧
    wifiFilename location latrange1 longrange1 t1 ≠ wifiFilename location latrange1 longrange1 t2 := by
  constructor
  · intro he
    exact h (string_affix_inj he)
  · intro he
    exact h (string_affix_inj he)

/-- Witness for timestamped_filenames_distinct at two concrete timestamps one
second apart. -/
theorem timestamped_filenames_distinct_witness :
    bluetoothFilename "47.2" "-122.5" "20240101_120000" ≠
      bluetoothFilename "47.2" "-122.5" "20240101_120001" ∧
    wifiFilename "tacoma" "47.2" "-122.5" "20240101_120000" ≠
      wifiFilename "tacoma" "47.2" "-122.5" "20240101_120001" :=
  timestamped_filenames_distinct "tacoma" "47.2" "-122.5" "20240101_120000" "20240101_120001"
    (by decide)

end WigleRepo

namespace WigleRepo

/-- C2 (amended, for the paginated loops): when the next outcome is HTTP 429
and the loop is still running, bluetooth.py stops at once with the
rate-limited terminal state and its open file untouched by the 429 iteration
(every batch already appended is still there), and wifi.py breaks out and
runs its save code, persisting everything accumulated so far.  wigle.py
instead retries on 429 (see the counterexample). -/
theorem rate_limited_stops_paginated_loops (maxRetries : Nat) :
    (∀ (st : BtState) (rest : List Outcome), st.retries < maxRetries →
      bluetoothRun maxRetries st (Outcome.http429 :: rest) =
        ({ st with requests := st.requests ++ [st.start] }, Term.rateLimited)) ∧
    (∀ (st : WifiState) (rest : List Outcome), st.retries < maxRetries →
      wifiRun maxRetries st (Outcome.http429 :: rest) =
        wifiFinish { st with requests := st.requests ++ [st.start] } Term.rateLimited) := by
  constructor
  · intro st rest h
    simp only [bluetoothRun, bluetoothStep]
    rw [if_neg (Nat.not_le.mpr h)]
  · intro st rest h
    simp only [wifiRun]
    rw [if_neg (Nat.not_le.mpr h)]

/-- Witness for rate_limited_stops_paginated_loops: from a mid-session state
with one committed batch, a 429 ends the bluetooth session immediately with
the sink intact, and ends the wifi session with its accumulated row saved. -/
theorem rate_limited_stops_paginated_loops_witness :
    bluetoothRun 3 { btInit with sink := [SinkLine.header, SinkLine.row "r"] }
        [Outcome.http429, Outcome.success ["s"] 5] =
      ({ btInit with sink := [SinkLine.header, SinkLine.row "r"], requests := [none] },
        Term.rateLimited) ∧
    wifiRun 3 { wifiInit with totalResults := ["r"] } [Outcome.http429] =
      ({ wifiInit with totalResults := ["r"], requests := [none] }, Term.rateLimited,
        some [SinkLine.header, SinkLine.row "r"]) := by
  constructor
  · exact (rate_limited_stops_paginated_loops 3).1
      { btInit with sink := [SinkLine.header, SinkLine.row "r"] }
      [Outcome.success ["s"] 5] (by decide)
  · have h := (rate_limited_stops_paginated_loops 3).2
      { wifiInit with totalResults := ["r"] } [] (by decide)
    rw [h]
    decide

end WigleRepo

namespace WigleRepo

/-- C3 (amended, for the incremental-sink loop): in bluetooth.py an HTTP 401
or any other non-200/429 status stops the loop at once, the termination
reason reports the condition (unauthorized, or the generic HTTP failure),
and the open file — holding every batch committed before the failure — is
untouched by the failing iteration.  wifi.py instead returns without running
its save code, discarding the accumulated batches (see the counterexample). -/
theorem bluetooth_abort_preserves_sink (maxRetries : Nat) :
    (∀ (st : BtState) (rest : List Outcome), st.retries < maxRetries →
      bluetoothRun maxRetries st (Outcome.http401 :: rest) =
        ({ st with requests := st.requests ++ [st.start] }, Term.unauthorized)) ∧
    (∀ (st : BtState) (code : Nat) (rest : List Outcome), st.retries < maxRetries →
      bluetoothRun maxRetries st (Outcome.httpOther code :: rest) =
        ({ st with requests := st.requests ++ [st.start] }, Term.httpFailure)) := by
  constructor
  · intro st rest h
    simp only [bluetoothRun, bluetoothStep]
    rw [if_neg (Nat.not_le.mpr h)]
  · intro st code rest h
    simp only [bluetoothRun, bluetoothStep]
    rw [if_neg (Nat.not_le.mpr h)]

/-- Witness for bluetooth_abort_preserves_sink: from a state with one
committed batch, a 401 (and, from the same state, a 500) ends the session
with the sink still holding that batch. -/
theorem bluetooth_abort_preserves_sink_witness :
    bluetoothRun 3 { btInit with sink := [SinkLine.header, SinkLine.row "r"] }
        [Outcome.http401] =
      ({ btInit with sink := [SinkLine.header, SinkLine.row "r"], requests := [none] },
        Term.unauthorized) ∧
    bluetoothRun 3 { btInit with sink := [SinkLine.header, SinkLine.row "r"] }
        [Outcome.httpOther 500] =
      ({ btInit with sink := [SinkLine.header, SinkLine.row "r"], requests := [none] },
        Term.httpFailure) := by
  constructor
  · exact (bluetooth_abort_preserves_sink 3).1
      { btInit with sink := [SinkLine.header, SinkLine.row "r"] } [] (by decide)
  · exact (bluetooth_abort_preserves_sink 3).2
      { btInit with sink := [SinkLine.header, SinkLine.row "r"] } 500 [] (by decide)

end WigleRepo

namespace WigleRepo

lemma bluetoothRun_exhausted_retries (maxRetries : Nat) :
    ∀ (trace : List Outcome) (st st' : BtState),
      bluetoothRun maxRetries st trace = (st', Term.exhausted) →
      maxRetries ≤ st'.retries ∧ (st.retries ≤ maxRetries → st'.retries = maxRetries) := by
  intro trace
  induction trace with
  | nil =>
    intro st st' heq
    simp only [bluetoothRun] at heq
    split at heq
    · rename_i hle
      cases heq
      exact ⟨hle, fun h2 => Nat.le_antisymm h2 hle⟩
    · simp at heq
  | cons o rest ih =>
    intro st st' heq
    simp only [bluetoothRun] at heq
    split at heq
    · rename_i hle
      cases heq
      exact ⟨hle, fun h2 => Nat.le_antisymm h2 hle⟩
    · rename_i hlt
      have hret : st.retries ≤ maxRetries := Nat.le_of_lt (Nat.not_le.mp hlt)
      cases o with
      | success results totalResults =>
        dsimp only [bluetoothStep] at heq
        split at heq
        · rename_i x st2 t2 harm
          split at harm
          · cases harm
            simp at heq
          · cases harm
        · rename_i x st2 harm
          split at harm
          · cases harm
          · cases harm
            have h3 := ih _ _ heq
            exact ⟨h3.1, fun _ => h3.2 hret⟩
      | http401 => dsimp only [bluetoothStep] at heq; simp at heq
      | http429 => dsimp only [bluetoothStep] at heq; simp at heq
      | httpOther code => dsimp only [bluetoothStep] at heq; simp at heq
      | tooManyRedirects => dsimp only [bluetoothStep] at heq; simp at heq
      | otherException => dsimp only [bluetoothStep] at heq; simp at heq
      | timeout =>
        dsimp only [bluetoothStep] at heq
        have h3 := ih _ _ heq
        exact ⟨h3.1, fun _ => h3.2 (by simpa using Nat.not_le.mp hlt)⟩
      | connectionError =>
        dsimp only [bluetoothStep] at heq
        have h3 := ih _ _ heq
        exact ⟨h3.1, fun _ => h3.2 (by simpa using Nat.not_le.mp hlt)⟩

end WigleRepo

namespace WigleRepo

/-- C6 (amended): bluetooth.py's retry counter is incremented on each
transient failure (Timeout, ConnectionError) and the fetch is abandoned as
exhausted exactly when the counter reaches maxRetries — but the counter is
never reset: a successful batch leaves it unchanged (see the
counterexample), so transient failures accumulate across the whole session. -/
theorem retry_counter_dynamics (maxRetries : Nat) :
    (∀ (st : BtState) (rs : List String) (T : Nat),
      ((bluetoothStep st (Outcome.success rs T)).1).retries = st.retries) ∧
    (∀ st : BtState, ((bluetoothStep st Outcome.timeout).1).retries = st.retries + 1) ∧
    (∀ st : BtState, ((bluetoothStep st Outcome.connectionError).1).retries = st.retries + 1) ∧
    (∀ (st st' : BtState) (trace : List Outcome),
      st.retries ≤ maxRetries →
      bluetoothRun maxRetries st trace = (st', Term.exhausted) →
      st'.retries = maxRetries) := by
  refine ⟨?_, ?_, ?_, ?_⟩
  · intro st rs T
    simp only [bluetoothStep]
    split <;> rfl
  · intro st; rfl
  · intro st; rfl
  · intro st st' trace hle heq
    exact (bluetoothRun_exhausted_retries maxRetries trace st st' heq).2 hle

/-- Witness for retry_counter_dynamics: one timeout from a fresh session with
a budget of 1 abandons the fetch with the counter equal to the budget. -/
theorem retry_counter_dynamics_witness :
    ((bluetoothStep btInit (Outcome.success ["a"] 5)).1).retries = btInit.retries ∧
    ((bluetoothStep btInit Outcome.timeout).1).retries = btInit.retries + 1 ∧
    ((bluetoothRun 1 btInit [Outcome.timeout]).1).retries = 1 := by
  refine ⟨(retry_counter_dynamics 1).1 btInit ["a"] 5, (retry_counter_dynamics 1).2.1 btInit, ?_⟩
  exact (retry_counter_dynamics 1).2.2.2 btInit (bluetoothRun 1 btInit [Outcome.timeout]).1
    [Outcome.timeout] (by decide) (by decide)

end WigleRepo

namespace WigleRepo

lemma bluetoothRun_all_transient (maxRetries : Nat) :
    ∀ (trace : List Outcome) (st : BtState),
      (∀ o ∈ trace, o = Outcome.timeout ∨ o = Outcome.connectionError) →
      st.retries ≤ maxRetries →
      maxRetries ≤ st.retries + trace.length →
      bluetoothRun maxRetries st trace =
        ({ st with retries := maxRetries,
                   requests := st.requests ++ List.replicate (maxRetries - st.retries) st.start,
                   sleeps := st.sleeps + (maxRetries - st.retries) }, Term.exhausted) := by
  intro trace
  induction trace with
  | nil =>
    intro st _ hle hge
    simp only [List.length_nil, Nat.add_zero] at hge
    have heq : maxRetries = st.retries := Nat.le_antisymm hge hle
    subst heq
    simp [bluetoothRun]
  | cons o rest ih =>
    intro st hall hle hge
    by_cases hcut : maxRetries ≤ st.retries
    · have heq : maxRetries = st.retries := Nat.le_antisymm hcut hle
      subst heq
      simp [bluetoothRun]
    · have hlt : st.retries < maxRetries := Nat.not_le.mp hcut
      have hk : maxRetries - st.retries = (maxRetries - (st.retries + 1)) + 1 := by omega
      have hstep : ∀ st2 : BtState,
          st2 = { st with retries := st.retries + 1,
                          requests := st.requests ++ [st.start],
                          sleeps := st.sleeps + 1 } →
          bluetoothRun maxRetries st2 rest =
            ({ st with retries := maxRetries,
                       requests := st.requests ++ List.replicate (maxRetries - st.retries) st.start,
                       sleeps := st.sleeps + (maxRetries - st.retries) }, Term.exhausted) := by
        intro st2 h2
        have hres := ih st2 (fun o ho => hall o (List.mem_cons_of_mem _ ho))
          (by rw [h2]; exact hlt)
          (by rw [h2]
              simp only [List.length_cons] at hge
              show maxRetries ≤ st.retries + 1 + rest.length
              omega)
        rw [hres, h2]
        have hreq : (st.requests ++ [st.start]) ++
            List.replicate (maxRetries - (st.retries + 1)) st.start =
            st.requests ++ List.replicate (maxRetries - st.retries) st.start := by
          rw [hk, List.replicate_succ, List.append_assoc]
          rfl
        have hsl : (st.sleeps + 1) + (maxRetries - (st.retries + 1)) =
            st.sleeps + (maxRetries - st.retries) := by omega
        simp only [hreq, hsl]
      rcases hall o (List.mem_cons_self o rest) with ho | ho <;> subst ho
      · simp only [bluetoothRun]
        rw [if_neg hcut]
        exact hstep _ rfl
      · simp only [bluetoothRun]
        rw [if_neg hcut]
        exact hstep _ rfl

end WigleRepo

namespace WigleRepo

lemma bluetoothRun_success_bounded (maxRetries T : Nat) :
    ∀ (batches : List (List String)) (st : BtState),
      (st.totalCount = none ∨ st.totalCount = some T) →
      st.currentCount + sumLens batches ≤ T →
      ((bluetoothRun maxRetries st (successTrace batches T)).1).currentCount ≤ T := by
  intro batches
  induction batches with
  | nil =>
    intro st _ hbound
    simp only [sumLens, List.map_nil, List.sum_nil, Nat.add_zero] at hbound
    simp only [successTrace, List.map_nil, bluetoothRun]
    split <;> exact hbound
  | cons b rest ih =>
    intro st htot hbound
    simp only [sumLens, List.map_cons, List.sum_cons] at hbound
    simp only [successTrace, List.map_cons, bluetoothRun]
    split
    · dsimp only
      omega
    · dsimp only [bluetoothStep]
      have htc : st.totalCount.getD T = T := by
        rcases htot with h | h <;> simp [h]
      rw [htc]
      split
      · rename_i x st2 t2 harm
        split at harm
        · cases harm
          dsimp only
          omega
        · cases harm
      · rename_i x st2 harm
        split at harm
        · cases harm
        · cases harm
          have hres := ih { st with
              currentCount := st.currentCount + b.length,
              totalCount := some T,
              sink := appendBatch st.sink b,
              requests := st.requests ++ [st.start],
              start := some (st.currentCount + b.length),
              sleeps := st.sleeps + 1 } (Or.inr rfl)
            (by dsimp only; simp only [sumLens]; omega)
          simpa [successTrace] using hres

/-- C4 (amended): every successful batch advances the cursor by exactly the
batch's length — in particular strictly when the batch is nonempty — and,
provided the server never delivers more records than the total it reported
on the first page, the cursor never exceeds that total.  Without that
proviso the code does not enforce the bound (see the counterexample), and an
empty batch leaves the cursor unchanged. -/
theorem cursor_monotonicity (maxRetries : Nat) :
    (∀ (st : BtState) (rs : List String) (T : Nat),
      ((bluetoothStep st (Outcome.success rs T)).1).currentCount = st.currentCount + rs.length) ∧
    (∀ (st : BtState) (rs : List String) (T : Nat), rs ≠ [] →
      st.currentCount < ((bluetoothStep st (Outcome.success rs T)).1).currentCount) ∧
    (∀ (batches : List (List String)) (T : Nat), sumLens batches ≤ T →
      ((bluetoothRun maxRetries btInit (successTrace batches T)).1).currentCount ≤ T) := by
  refine ⟨?_, ?_, ?_⟩
  · intro st rs T
    simp only [bluetoothStep]
    split <;> rfl
  · intro st rs T hne
    have h1 : ((bluetoothStep st (Outcome.success rs T)).1).currentCount
        = st.currentCount + rs.length := by
      simp only [bluetoothStep]
      split <;> rfl
    rw [h1]
    have : 0 < rs.length := List.length_pos.mpr hne
    omega
  · intro batches T hbound
    exact bluetoothRun_success_bounded maxRetries T batches btInit (Or.inl rfl)
      (by simp only [btInit]; omega)

/-- Witness for cursor_monotonicity: a nonempty batch strictly advances the
cursor, and a 100+100+50 session against a reported total of 250 ends with
the cursor at most 250. -/
theorem cursor_monotonicity_witness :
    btInit.currentCount < ((bluetoothStep btInit (Outcome.success ["a"] 5)).1).currentCount ∧
    ((bluetoothRun 3 btInit (successTrace [List.replicate 100 "r", List.replicate 100 "r",
      List.replicate 50 "r"] 250)).1).currentCount ≤ 250 := by
  constructor
  · exact (cursor_monotonicity 3).2.1 btInit ["a"] 5 (by decide)
  · exact (cursor_monotonicity 3).2.2 [List.replicate 100 "r", List.replicate 100 "r",
      List.replicate 50 "r"] 250 (by decide)

end WigleRepo

namespace WigleRepo

lemma bluetoothRun_completed_total (maxRetries : Nat) :
    ∀ (trace : List Outcome) (st st' : BtState),
      bluetoothRun maxRetries st trace = (st', Term.completed) →
      ∃ tot, st'.totalCount = some tot ∧ tot ≤ st'.currentCount := by
  intro trace
  induction trace with
  | nil =>
    intro st st' heq
    simp only [bluetoothRun] at heq
    split at heq <;> simp at heq
  | cons o rest ih =>
    intro st st' heq
    simp only [bluetoothRun] at heq
    split at heq
    · simp at heq
    · cases o with
      | success results totalResults =>
        dsimp only [bluetoothStep] at heq
        split at heq
        · rename_i x st2 t2 harm
          split at harm
          · rename_i hcond
            cases harm
            cases heq
            exact ⟨_, rfl, hcond⟩
          · cases harm
        · rename_i x st2 harm
          split at harm
          · cases harm
          · cases harm
            exact ih _ _ heq
      | http401 => dsimp only [bluetoothStep] at heq; simp at heq
      | http429 => dsimp only [bluetoothStep] at heq; simp at heq
      | httpOther code => dsimp only [bluetoothStep] at heq; simp at heq
      | tooManyRedirects => dsimp only [bluetoothStep] at heq; simp at heq
      | otherException => dsimp only [bluetoothStep] at heq; simp at heq
      | timeout =>
        dsimp only [bluetoothStep] at heq
        exact ih _ _ heq
      | connectionError =>
        dsimp only [bluetoothStep] at heq
        exact ih _ _ heq

/-- C1 (amended, for the paginated loop): a bluetooth.py session terminates
only with one of: completed — and then the cursor has reached the known
total (retrieved ≥ total); a policy abort (the 401 / 429 / other-status /
redirect / exception terminal states, immediate by construction of the
step); or exhausted — and then the retry budget is spent.  Moreover after a
successful batch that leaves retrieved < total the loop does not stop: it
continues as a fresh run from the advanced state, whose next request is
issued at offset current_count (the advanced cursor).  wigle.py's
single-page script does not satisfy this (see the counterexample). -/
theorem fetch_loop_termination_conditions (maxRetries : Nat) :
    (∀ (trace : List Outcome) (st st' : BtState) (t : Term),
      bluetoothRun maxRetries st trace = (st', t) →
      (t = Term.completed → ∃ tot, st'.totalCount = some tot ∧ tot ≤ st'.currentCount) ∧
      (t = Term.exhausted → maxRetries ≤ st'.retries)) ∧
    (∀ (st : BtState) (rs : List String) (T : Nat) (rest : List Outcome),
      st.retries < maxRetries →
      st.currentCount + rs.length < st.totalCount.getD T →
      bluetoothRun maxRetries st (Outcome.success rs T :: rest) =
        bluetoothRun maxRetries
          { st with currentCount := st.currentCount + rs.length,
                    totalCount := some (st.totalCount.getD T),
                    sink := appendBatch st.sink rs,
                    requests := st.requests ++ [st.start],
                    start := some (st.currentCount + rs.length),
                    sleeps := st.sleeps + 1 } rest) := by
  constructor
  · intro trace st st' t heq
    constructor
    · intro ht
      subst ht
      exact bluetoothRun_completed_total maxRetries trace st st' heq
    · intro ht
      subst ht
      exact (bluetoothRun_exhausted_retries maxRetries trace st st' heq).1
  · intro st rs T rest h1 h2
    simp only [bluetoothRun]
    rw [if_neg (Nat.not_le.mpr h1)]
    dsimp only [bluetoothStep]
    rw [if_neg (Nat.not_le.mpr h2)]

/-- Witness for fetch_loop_termination_conditions: a completed one-page
session has its cursor at or past the known total, and a short first page
(1 of 5) makes the loop continue from the advanced state instead of
stopping. -/
theorem fetch_loop_termination_conditions_witness :
    (∃ tot, ((bluetoothRun 3 btInit [Outcome.success ["a"] 1]).1).totalCount = some tot ∧
      tot ≤ ((bluetoothRun 3 btInit [Outcome.success ["a"] 1]).1).currentCount) ∧
    bluetoothRun 3 btInit (Outcome.success ["a"] 5 :: [Outcome.http429]) =
      bluetoothRun 3
        { btInit with currentCount := btInit.currentCount + ["a"].length,
                      totalCount := some (btInit.totalCount.getD 5),
                      sink := appendBatch btInit.sink ["a"],
                      requests := btInit.requests ++ [btInit.start],
                      start := some (btInit.currentCount + ["a"].length),
                      sleeps := btInit.sleeps + 1 } [Outcome.http429] := by
  constructor
  · exact ((fetch_loop_termination_conditions 3).1 [Outcome.success ["a"] 1] btInit
      (bluetoothRun 3 btInit [Outcome.success ["a"] 1]).1 Term.completed
      (by decide)).1 rfl
  · exact (fetch_loop_termination_conditions 3).2 btInit ["a"] 5 [Outcome.http429]
      (by decide) (by decide)

end WigleRepo

namespace WigleRepo

lemma wifiRun_all_connError (maxRetries : Nat) :
    ∀ (trace : List Outcome) (st : WifiState),
      (∀ o ∈ trace, o = Outcome.connectionError) →
      st.retries ≤ maxRetries →
      maxRetries ≤ st.retries + trace.length →
      wifiRun maxRetries st trace =
        wifiFinish
          ({ st with
              retries := maxRetries,
              requests := st.requests ++ List.replicate (maxRetries - st.retries) st.start,
              sleeps := st.sleeps + (maxRetries - st.retries) })
          Term.exhausted := by
  intro trace
  induction trace with
  | nil =>
    intro st _ hle hge
    simp only [List.length_nil, Nat.add_zero] at hge
    have heq : maxRetries = st.retries := Nat.le_antisymm hge hle
    subst heq
    simp [wifiRun]
  | cons o rest ih =>
    intro st hall hle hge
    by_cases hcut : maxRetries ≤ st.retries
    · have heq : maxRetries = st.retries := Nat.le_antisymm hcut hle
      subst heq
      simp [wifiRun]
    · have hlt : st.retries < maxRetries := Nat.not_le.mp hcut
      have hk : maxRetries - st.retries = (maxRetries - (st.retries + 1)) + 1 := by omega
      have ho := hall o (List.mem_cons_self o rest)
      subst ho
      simp only [wifiRun]
      rw [if_neg hcut]
      have hres := ih
        ({ st with
            retries := st.retries + 1,
            requests := st.requests ++ [st.start],
            sleeps := st.sleeps + 1 })
        (fun o ho => hall o (List.mem_cons_of_mem _ ho))
        hlt
        (by simp only [List.length_cons] at hge
            show maxRetries ≤ st.retries + 1 + rest.length
            omega)
      rw [hres]
      have hreq : (st.requests ++ [st.start]) ++
          List.replicate (maxRetries - (st.retries + 1)) st.start =
          st.requests ++ List.replicate (maxRetries - st.retries) st.start := by
        rw [hk, List.replicate_succ, List.append_assoc]
        rfl
      have hsl : (st.sleeps + 1) + (maxRetries - (st.retries + 1)) =
          st.sleeps + (maxRetries - st.retries) := by omega
      simp only [hreq, hsl]

/-- C7 counterexample: in wifi.py a timeout is not a retried transient — it
is caught by the generic exception handler.  On an all-timeout trace the
session makes a single attempt and returns as an exception with nothing
persisted, instead of making maxRetries attempts and exhausting. -/
theorem wifi_timeout_not_retried :
    wifiRun 3 wifiInit [Outcome.timeout, Outcome.timeout, Outcome.timeout] =
      ({ wifiInit with requests := [none] }, Term.exception, none) := by
  decide

/-- C7 (amended): in bluetooth.py, where both Timeout and ConnectionError
are transient, an all-transient session performs exactly maxRetries attempts
at the same unchanged offset, sleeping after each, then terminates as
exhausted with the sink (and all other state) exactly as committed before
the failures began.  In wifi.py only ConnectionError is transient: an
all-connection-error session likewise performs exactly maxRetries attempts
at the same offset and then exhausts, persisting through its after-loop save
exactly what had been accumulated before the failures began; a timeout there
aborts at once (see the counterexample). -/
theorem transient_retry_bound (maxRetries : Nat) :
    (∀ (st : BtState) (trace : List Outcome),
      st.retries = 0 →
      (∀ o ∈ trace, o = Outcome.timeout ∨ o = Outcome.connectionError) →
      maxRetries ≤ trace.length →
      bluetoothRun maxRetries st trace =
        ({ st with retries := maxRetries,
                   requests := st.requests ++ List.replicate maxRetries st.start,
                   sleeps := st.sleeps + maxRetries }, Term.exhausted)) ∧
    (∀ (st : WifiState) (trace : List Outcome),
      st.retries = 0 →
      (∀ o ∈ trace, o = Outcome.connectionError) →
      maxRetries ≤ trace.length →
      wifiRun maxRetries st trace =
        wifiFinish
          ({ st with
              retries := maxRetries,
              requests := st.requests ++ List.replicate maxRetries st.start,
              sleeps := st.sleeps + maxRetries })
          Term.exhausted) := by
  constructor
  · intro st trace h0 hall hlen
    have h := bluetoothRun_all_transient maxRetries trace st hall
      (by rw [h0]; exact Nat.zero_le _) (by rw [h0]; simpa using hlen)
    rw [h, h0]
    simp
  · intro st trace h0 hall hlen
    have h := wifiRun_all_connError maxRetries trace st hall
      (by rw [h0]; exact Nat.zero_le _) (by rw [h0]; simpa using hlen)
    rw [h, h0]
    simp

/-- Witness for transient_retry_bound: budget-3 sessions — bluetooth under
timeout, connection error, timeout; wifi (with one already-accumulated row)
under three connection errors — both make exactly three attempts at the
initial offset and exhaust, wifi saving its accumulated row. -/
theorem transient_retry_bound_witness :
    bluetoothRun 3 btInit [Outcome.timeout, Outcome.connectionError, Outcome.timeout] =
      ({ btInit with retries := 3,
                     requests := btInit.requests ++ List.replicate 3 btInit.start,
                     sleeps := btInit.sleeps + 3 }, Term.exhausted) ∧
    wifiRun 3 { wifiInit with totalResults := ["r"] }
        [Outcome.connectionError, Outcome.connectionError, Outcome.connectionError] =
      wifiFinish
        ({ wifiInit with
            totalResults := ["r"],
            retries := 3,
            requests := wifiInit.requests ++ List.replicate 3 wifiInit.start,
            sleeps := wifiInit.sleeps + 3 })
        Term.exhausted := by
  constructor
  · exact (transient_retry_bound 3).1 btInit
      [Outcome.timeout, Outcome.connectionError, Outcome.timeout] rfl (by decide) (by decide)
  · exact (transient_retry_bound 3).2 { wifiInit with totalResults := ["r"] }
      [Outcome.connectionError, Outcome.connectionError, Outcome.connectionError]
      rfl (by decide) (by decide)

end WigleRepo
